import Mathlib

set_option linter.unusedVariables false

/-! Shallow embedding of the Morphic browser-extension scraping core
(the shared content-script file: decodeJWT, validateJWT, Utils, retry,
Scraper), together with executable models of the JavaScript platform
primitives it relies on (JSON.parse, JSON.stringify, atob, URL,
URLSearchParams).  All definitions are translated from the source;
theorems at the end settle the specification claims. -/

namespace Morphic

/-- JSON values as produced by JSON.parse and consumed by JSON.stringify.
Numbers are restricted to integers, which covers every payload this
program produces or consumes.  Object fields keep insertion order, as
JavaScript objects do. -/
inductive Json where
  | null : Json
  | bool (b : Bool) : Json
  | num (n : Int) : Json
  | str (s : String) : Json
  | arr (elems : List Json) : Json
  | obj (fields : List (String × Json)) : Json

/-- Hexadecimal digit character for a value below 16 (lowercase, as
JSON.stringify emits in escape sequences). -/
def hexDigit (n : Nat) : Char :=
  if n < 10 then Char.ofNat (48 + n) else Char.ofNat (87 + n)

/-- JSON.stringify escaping of a single character. -/
def escapeChar (c : Char) : String :=
  if c = '"' then "\\\""
  else if c = '\\' then "\\\\"
  else if c = '\n' then "\\n"
  else if c = '\r' then "\\r"
  else if c = '\t' then "\\t"
  else if c.toNat = 8 then "\\b"
  else if c.toNat = 12 then "\\f"
  else if c.toNat < 32 then
    "\\u00" ++ String.mk [hexDigit (c.toNat / 16), hexDigit (c.toNat % 16)]
  else String.singleton c

/-- JSON.stringify rendering of a string literal. -/
def escapeString (s : String) : String :=
  "\"" ++ String.join (s.toList.map escapeChar) ++ "\""

mutual

/-- Model of JSON.stringify on the Json fragment above. -/
def serializeJson : Json → String
  | .null => "null"
  | .bool true => "true"
  | .bool false => "false"
  | .num n => toString n
  | .str s => escapeString s
  | .arr elems => "[" ++ serializeArr elems ++ "]"
  | .obj fields => "\x7b" ++ serializeObj fields ++ "\x7d"

/-- Comma-separated serialization of array elements. -/
def serializeArr : List Json → String
  | [] => ""
  | [x] => serializeJson x
  | x :: y :: xs => serializeJson x ++ "," ++ serializeArr (y :: xs)

/-- Comma-separated serialization of object fields. -/
def serializeObj : List (String × Json) → String
  | [] => ""
  | [(k, v)] => escapeString k ++ ":" ++ serializeJson v
  | (k, v) :: f :: fs =>
      escapeString k ++ ":" ++ serializeJson v ++ "," ++ serializeObj (f :: fs)

end

/-- JSON whitespace. -/
def isJsonWs (c : Char) : Bool :=
  c = ' ' || c = '\t' || c = '\n' || c = '\r'

/-- Drop leading JSON whitespace. -/
def skipWs : List Char → List Char
  | c :: cs => if isJsonWs c then skipWs cs else c :: cs
  | [] => []

/-- Value of a hexadecimal digit character. -/
def hexVal (c : Char) : Option Nat :=
  if '0' ≤ c ∧ c ≤ '9' then some (c.toNat - 48)
  else if 'a' ≤ c ∧ c ≤ 'f' then some (c.toNat - 97 + 10)
  else if 'A' ≤ c ∧ c ≤ 'F' then some (c.toNat - 65 + 10)
  else none

/-- Parse the body of a JSON string literal (after the opening quote),
returning the decoded characters and the rest of the input.  Surrogate
pairs in \u escapes are not recombined; no payload in this development
uses them. -/
def parseJStringChars : Nat → List Char → Option (List Char × List Char)
  | _, '"' :: rest => some ([], rest)
  | fuel + 1, '\\' :: e :: rest =>
    match e with
    | '"' => (parseJStringChars fuel rest).map (fun p => ('"' :: p.1, p.2))
    | '\\' => (parseJStringChars fuel rest).map (fun p => ('\\' :: p.1, p.2))
    | '/' => (parseJStringChars fuel rest).map (fun p => ('/' :: p.1, p.2))
    | 'n' => (parseJStringChars fuel rest).map (fun p => ('\n' :: p.1, p.2))
    | 't' => (parseJStringChars fuel rest).map (fun p => ('\t' :: p.1, p.2))
    | 'r' => (parseJStringChars fuel rest).map (fun p => ('\r' :: p.1, p.2))
    | 'b' => (parseJStringChars fuel rest).map (fun p => (Char.ofNat 8 :: p.1, p.2))
    | 'f' => (parseJStringChars fuel rest).map (fun p => (Char.ofNat 12 :: p.1, p.2))
    | 'u' =>
      match rest with
      | h1 :: h2 :: h3 :: h4 :: rest2 =>
        match hexVal h1, hexVal h2, hexVal h3, hexVal h4 with
        | some a, some b, some c, some d =>
          (parseJStringChars fuel rest2).map
            (fun p => (Char.ofNat (a * 4096 + b * 256 + c * 16 + d) :: p.1, p.2))
        | _, _, _, _ => none
      | _ => none
    | _ => none
  | fuel + 1, c :: rest =>
    if c.toNat < 32 then none
    else (parseJStringChars fuel rest).map (fun p => (c :: p.1, p.2))
  | _, _ => none

/-- Parse a run of decimal digits. -/
def takeDigits : List Char → List Char × List Char
  | c :: cs =>
    if c.isDigit then
      let p := takeDigits cs
      (c :: p.1, p.2)
    else ([], c :: cs)
  | [] => ([], [])

/-- Numeric value of a digit list. -/
def digitsToNat : List Char → Nat
  | [] => 0
  | c :: cs => (digitsToNat cs) + (c.toNat - 48) * 10 ^ cs.length

mutual

/-- Fuel-indexed parser for a JSON value.  Numbers are restricted to
integers (an optional minus sign and digits). -/
def parseVal : Nat → List Char → Option (Json × List Char)
  | 0, _ => none
  | fuel + 1, cs =>
    match skipWs cs with
    | 'n' :: 'u' :: 'l' :: 'l' :: rest => some (Json.null, rest)
    | 't' :: 'r' :: 'u' :: 'e' :: rest => some (Json.bool true, rest)
    | 'f' :: 'a' :: 'l' :: 's' :: 'e' :: rest => some (Json.bool false, rest)
    | '"' :: rest =>
      (parseJStringChars rest.length rest).map
        (fun p => (Json.str (String.mk p.1), p.2))
    | '-' :: rest =>
      match takeDigits rest with
      | ([], _) => none
      | (ds, rest2) => some (Json.num (-(digitsToNat ds : Int)), rest2)
    | '[' :: rest =>
      match skipWs rest with
      | ']' :: rest2 => some (Json.arr [], rest2)
      | cs2 =>
        match parseArrItems fuel cs2 with
        | some (xs, rest2) => some (Json.arr xs, rest2)
        | none => none
    | '\x7b' :: rest =>
      match skipWs rest with
      | '\x7d' :: rest2 => some (Json.obj [], rest2)
      | cs2 =>
        match parseObjItems fuel cs2 with
        | some (fs, rest2) => some (Json.obj fs, rest2)
        | none => none
    | c :: rest =>
      if c.isDigit then
        match takeDigits (c :: rest) with
        | ([], _) => none
        | (ds, rest2) => some (Json.num (digitsToNat ds : Int), rest2)
      else none
    | [] => none

/-- Parse one or more comma-separated array elements followed by a
closing bracket. -/
def parseArrItems : Nat → List Char → Option (List Json × List Char)
  | 0, _ => none
  | fuel + 1, cs =>
    match parseVal fuel cs with
    | none => none
    | some (v, rest) =>
      match skipWs rest with
      | ',' :: rest2 =>
        match parseArrItems fuel rest2 with
        | some (xs, rest3) => some (v :: xs, rest3)
        | none => none
      | ']' :: rest2 => some ([v], rest2)
      | _ => none

/-- Parse one or more comma-separated object fields followed by a
closing brace. -/
def parseObjItems : Nat → List Char → Option (List (String × Json) × List Char)
  | 0, _ => none
  | fuel + 1, cs =>
    match skipWs cs with
    | '"' :: rest =>
      match parseJStringChars rest.length rest with
      | none => none
      | some (kcs, rest2) =>
        match skipWs rest2 with
        | ':' :: rest3 =>
          match parseVal fuel rest3 with
          | none => none
          | some (v, rest4) =>
            match skipWs rest4 with
            | ',' :: rest5 =>
              match parseObjItems fuel rest5 with
              | some (fs, rest6) => some ((String.mk kcs, v) :: fs, rest6)
              | none => none
            | '\x7d' :: rest5 => some ([(String.mk kcs, v)], rest5)
            | _ => none
        | _ => none
    | _ => none

end

/-- Model of JSON.parse: parse a complete JSON value with only trailing
whitespace allowed. -/
def jsonParse (s : String) : Option Json :=
  match parseVal (s.length + 1) s.toList with
  | some (v, rest) => if skipWs rest = [] then some v else none
  | none => none

/-- ASCII whitespace removed by the forgiving-base64 decoder behind atob. -/
def isAsciiWs (c : Char) : Bool :=
  c = ' ' || c = '\t' || c = '\n' || c = '\r' || c = Char.ofNat 12

/-- Value of a standard base64 alphabet character. -/
def b64Val (c : Char) : Option Nat :=
  if 'A' ≤ c ∧ c ≤ 'Z' then some (c.toNat - 65)
  else if 'a' ≤ c ∧ c ≤ 'z' then some (c.toNat - 97 + 26)
  else if '0' ≤ c ∧ c ≤ '9' then some (c.toNat - 48 + 52)
  else if c = '+' then some 62
  else if c = '/' then some 63
  else none

/-- Reassemble 6-bit groups into bytes (a final group of 2 or 3 values
yields 1 or 2 bytes). -/
def b64Bytes : List Nat → List Nat
  | a :: b :: c :: d :: rest =>
    (a * 4 + b / 16) :: ((b % 16) * 16 + c / 4) :: ((c % 4) * 64 + d) :: b64Bytes rest
  | [a, b] => [a * 4 + b / 16]
  | [a, b, c] => [a * 4 + b / 16, (b % 16) * 16 + c / 4]
  | _ => []

/-- Strip one or two trailing padding characters. -/
def stripPad (cs : List Char) : List Char :=
  match cs.reverse with
  | '=' :: '=' :: rest => rest.reverse
  | '=' :: rest => rest.reverse
  | _ => cs

/-- Model of the atob function (the WHATWG forgiving-base64 decoder):
remove ASCII whitespace, strip up to two trailing padding characters
when the length is a multiple of four, reject a leftover length of one
or any character outside the alphabet, and decode the 6-bit groups.
Each decoded byte becomes one character. -/
def atob (s : String) : Option String :=
  let cs := s.toList.filter (fun c => !(isAsciiWs c))
  let cs := if cs.length % 4 = 0 then stripPad cs else cs
  if cs.length % 4 = 1 then none
  else
    match cs.mapM b64Val with
    | some vals => some (String.mk ((b64Bytes vals).map Char.ofNat))
    | none => none

/-! ### The token layer (decodeJWT, getJWTToken, validateJWT) -/

/-- JavaScript String.split with a single-character separator. -/
def splitOnChar (sep : Char) : List Char → List (List Char)
  | [] => [[]]
  | c :: cs =>
    if c = sep then [] :: splitOnChar sep cs
    else
      match splitOnChar sep cs with
      | s :: ss => (c :: s) :: ss
      | [] => [[c]]

/-- Prefix test on character lists. -/
def listStartsWith : List Char → List Char → Bool
  | [], _ => true
  | _ :: _, [] => false
  | p :: ps, c :: cs => p = c && listStartsWith ps cs

/-- Replace every non-overlapping occurrence of pat by repl, scanning
left to right; skip counts characters of a just-matched occurrence that
remain to be consumed. -/
def replaceAllGo (pat repl : List Char) : Nat → List Char → List Char
  | _, [] => []
  | k + 1, _ :: cs => replaceAllGo pat repl k cs
  | 0, c :: cs =>
    if listStartsWith pat (c :: cs) then
      repl ++ replaceAllGo pat repl (pat.length - 1) cs
    else c :: replaceAllGo pat repl 0 cs

/-- JavaScript String.replace with a global literal pattern. -/
def replaceAll (pat repl : List Char) (cs : List Char) : List Char :=
  match pat with
  | [] => cs
  | _ :: _ => replaceAllGo pat repl 0 cs

/-- Translation of decodeJWT: split the token on dots, take the second
segment, turn base64url into base64, atob it and JSON.parse the result.
Every JavaScript exception along the way (TypeError when there is no
second segment, an atob failure, a JSON.parse failure) is modelled as
none. -/
def decodeJWT (token : String) : Option Json :=
  let parts := splitOnChar '.' token.toList
  match parts[1]? with
  | none => none
  | some payload =>
    let base64 := replaceAll ['_'] ['/'] (replaceAll ['-'] ['+'] payload)
    match atob (String.mk base64) with
    | none => none
    | some decoded => jsonParse decoded

/-- The decoded JWT payload as the Scraper reads it.  The TypeScript
interface declares every field, but nothing checks the parsed JSON, so
each field is an Option: none models a JavaScript undefined (the field
absent from the payload or carrying a value of another type). -/
structure JWTPayload where
  search_id : Option Int
  limit : Option Int
  upload_url : Option String
  exp : Option Int
  aud : Option String
  iss : Option String
deriving Repr, DecidableEq

/-- Object-field lookup with JavaScript semantics: a duplicated key keeps
its last value. -/
def jsonLookup (fields : List (String × Json)) (key : String) : Option Json :=
  match fields.reverse.find? (fun kv => kv.1 = key) with
  | some kv => some kv.2
  | none => none

/-- Numeric field access. -/
def asInt : Json → Option Int
  | .num n => some n
  | _ => none

/-- String field access. -/
def asStr : Json → Option String
  | .str s => some s
  | _ => none

/-- Read the fields the Scraper uses out of the parsed payload JSON.
A payload that is not an object, or a field of the wrong type, yields
none for the affected fields, modelling an undefined property read. -/
def toPayload : Json → JWTPayload
  | .obj fields =>
    { search_id := (jsonLookup fields "search_id").bind asInt
      limit := (jsonLookup fields "limit").bind asInt
      upload_url := (jsonLookup fields "upload_url").bind asStr
      exp := (jsonLookup fields "exp").bind asInt
      aud := (jsonLookup fields "aud").bind asStr
      iss := (jsonLookup fields "iss").bind asStr }
  | _ =>
    { search_id := none, limit := none, upload_url := none
      exp := none, aud := none, iss := none }

def EXPECTED_AUDIENCE : String := "morphic-browser-extension"

def EXPECTED_ISSUER : String := "morphic-api"

/-- The three validation failures validateJWT can throw. -/
inductive TokenErr where
  | expired : TokenErr
  | audienceMismatch (got : String) : TokenErr
  | issuerMismatch (got : String) : TokenErr
deriving Repr, DecidableEq

/-- JavaScript truthiness of a possibly-undefined string: undefined and
the empty string are falsy. -/
def jsTruthyStr : Option String → Bool
  | none => false
  | some s => !(s = "")

/-- JavaScript comparison currentTime >= payload.exp: comparing with an
undefined exp yields NaN on the right and the comparison is false. -/
def jsGeExp (currentTime : Int) : Option Int → Bool
  | some e => currentTime ≥ e
  | none => false

/-- Translation of validateJWT.  The currentTime argument models
Math.floor(Date.now() / 1000).  Note the aud and iss guards use
JavaScript truthiness, not presence. -/
def validateJWT (currentTime : Int) (payload : JWTPayload) : Option TokenErr :=
  if jsGeExp currentTime payload.exp then some .expired
  else if jsTruthyStr payload.aud && !(payload.aud == some EXPECTED_AUDIENCE) then
    some (.audienceMismatch ((payload.aud).getD ""))
  else if jsTruthyStr payload.iss && !(payload.iss == some EXPECTED_ISSUER) then
    some (.issuerMismatch ((payload.iss).getD ""))
  else none

/-- Characters admitted by the token segments of MORPHIC_TOKEN_REGEX. -/
def isTokenChar (c : Char) : Bool :=
  c.isAlpha || c.isDigit || c = '-' || c = '_'

/-- Maximal run of token characters. -/
def takeSeg : List Char → List Char × List Char
  | c :: cs =>
    if isTokenChar c then
      let p := takeSeg cs
      (c :: p.1, p.2)
    else ([], c :: cs)
  | [] => ([], [])

/-- Match the capture group of MORPHIC_TOKEN_REGEX (three dot-separated
runs of token characters, each greedy) at the start of the input. -/
def matchTokenAt (cs : List Char) : Option String :=
  match takeSeg cs with
  | ([], _) => none
  | (s1, r1) =>
    match r1 with
    | '.' :: r2 =>
      match takeSeg r2 with
      | ([], _) => none
      | (s2, r3) =>
        match r3 with
        | '.' :: r4 =>
          match takeSeg r4 with
          | ([], _) => none
          | (s3, _) => some (String.mk (s1 ++ '.' :: (s2 ++ '.' :: s3)))
        | _ => none
    | _ => none

/-- Leftmost match of MORPHIC_TOKEN_REGEX: scan for the literal
"morphic:" and require the three-segment group right after it, resuming
the scan at the next position on a failed attempt, exactly as the regex
engine does. -/
def findMorphicToken : List Char → Option String
  | [] => none
  | c :: rest =>
    if listStartsWith ("morphic:".toList) (c :: rest) then
      match matchTokenAt ((c :: rest).drop 8) with
      | some t => some t
      | none => findMorphicToken rest
    else findMorphicToken rest

/-- Translation of Scraper.getJWTToken: run MORPHIC_TOKEN_REGEX over the
page URL; none models the thrown Error when no token is found. -/
def getJWTToken (href : String) : Option String :=
  findMorphicToken href.toList

/-! ### URLSearchParams, URL and the Utils object -/

/-- Percent-decoding as applied by URLSearchParams to keys and values:
a plus becomes a space, a valid percent escape becomes the escaped byte,
and anything else stays literal.  Multi-byte UTF-8 sequences are not
recombined; no input in this development uses them. -/
def percentDecode : List Char → List Char
  | [] => []
  | '%' :: h1 :: h2 :: rest =>
    (match hexVal h1, hexVal h2 with
     | some a, some b => Char.ofNat (a * 16 + b) :: percentDecode rest
     | _, _ => '%' :: percentDecode (h1 :: h2 :: rest))
  | '+' :: rest => ' ' :: percentDecode rest
  | c :: rest => c :: percentDecode rest

/-- Split a query segment at its first equals sign into key and value. -/
def splitFirstEq : List Char → List Char × List Char
  | [] => ([], [])
  | '=' :: rest => ([], rest)
  | c :: rest =>
    let p := splitFirstEq rest
    (c :: p.1, p.2)

/-- URLSearchParams parsing of a query string: split on ampersands,
ignore empty segments, split each segment at its first equals sign and
percent-decode both sides. -/
def parseQuery (q : List Char) : List (String × String) :=
  (splitOnChar '&' q).filterMap (fun seg =>
    match seg with
    | [] => none
    | _ =>
      let p := splitFirstEq seg
      some (String.mk (percentDecode p.1), String.mk (percentDecode p.2)))

/-- URLSearchParams.get: the value of the first matching key. -/
def searchParamsGet (q : List Char) (key : String) : Option String :=
  match (parseQuery q).find? (fun kv => kv.1 = key) with
  | some kv => some kv.2
  | none => none

/-- URLSearchParams.has. -/
def searchParamsHas (q : List Char) (key : String) : Bool :=
  (searchParamsGet q key).isSome

/-- A result link element as the scraper sees it: its href attribute,
or none when the attribute is missing. -/
structure ResultLink where
  href : Option String
deriving Repr, DecidableEq

/-- The pair of query parameters Utils.parseResultLink extracts; each is
none when the parameter is absent (a JavaScript null). -/
structure ParsedResult where
  imageUrl : Option String
  pageUrl : Option String
deriving Repr, DecidableEq

/-- Translation of Utils.parseResultLink.  none models the throw when
the link has no href.  JavaScript split on a question mark indexes the
text between the first and second question marks; when there is none,
URLSearchParams receives undefined and holds no parameters. -/
def parseResultLink (link : ResultLink) : Option ParsedResult :=
  match link.href with
  | none => none
  | some href =>
    let fixedHref := replaceAll ("&amp;".toList) ("&".toList) href.toList
    let query := ((splitOnChar '?' fixedHref)[1]?).getD []
    some { imageUrl := searchParamsGet query "imgurl"
           pageUrl := searchParamsGet query "imgrefurl" }

/-- Translation of Utils.canParseLink on a non-null link element (the
caller has already checked the element exists).  The try-catch around
URLSearchParams is dead code, since that constructor does not throw on
strings. -/
def canParseLink (link : ResultLink) : Bool :=
  match link.href with
  | none => false
  | some href =>
    let fixedHref := replaceAll ("&amp;".toList) ("&".toList) href.toList
    if !(fixedHref.contains '?') then false
    else
      let query := ((splitOnChar '?' fixedHref)[1]?).getD []
      searchParamsHas query "imgurl" && searchParamsHas query "imgrefurl"

/-- Maximal run of characters satisfying p. -/
def takeRun (p : Char → Bool) : List Char → List Char × List Char
  | c :: cs =>
    if p c then
      let q := takeRun p cs
      (c :: q.1, q.2)
    else ([], c :: cs)
  | [] => ([], [])

/-- Scheme characters after the leading letter. -/
def isSchemeChar (c : Char) : Bool :=
  c.isAlpha || c.isDigit || c = '+' || c = '-' || c = '.'

/-- Lowercasing through the character list. -/
def lowerStr (s : String) : String :=
  String.mk (s.toList.map Char.toLower)

/-- The special schemes of the WHATWG URL standard, which demand an
authority part. -/
def specialSchemes : List String := ["http", "https", "ws", "wss", "ftp", "file"]

/-- Model of the protocol property of new URL(s): a leading letter, a
run of scheme characters and a colon give the lowercased scheme, where
a special scheme additionally needs two slashes and a nonempty host.
none models the thrown TypeError.  This approximates the WHATWG parser
on the inputs this program meets. -/
def urlProtocol (s : String) : Option String :=
  match s.toList with
  | [] => none
  | c :: rest =>
    if c.isAlpha then
      let p := takeRun isSchemeChar rest
      match p.2 with
      | ':' :: after =>
        let scheme := lowerStr (String.mk (c :: p.1))
        if specialSchemes.contains scheme then
          match after with
          | '/' :: '/' :: h :: _ => if h = '/' then none else some (scheme ++ ":")
          | _ => none
        else some (scheme ++ ":")
      | _ => none
    else none

/-- JavaScript s.split(sep)[0] for a nonempty literal separator: the
prefix before the first occurrence, or all of s when sep is absent. -/
def beforeFirst (sep : List Char) : List Char → List Char
  | [] => []
  | c :: rest =>
    if listStartsWith sep (c :: rest) then []
    else c :: beforeFirst sep rest

/-- The protocol string the scraper computes for an image URL: the
protocol of new URL(s) when construction succeeds, otherwise the
fallback of the prefix before a scheme separator with a colon
appended. -/
def scrapedProtocol (s : String) : String :=
  match urlProtocol s with
  | some p => p
  | none => String.mk (beforeFirst ("://".toList) s.toList) ++ ":"

def validProtocols : List String := ["http:", "https:", "ftp:"]

/-! ### The DOM model and scrapeSingleResult -/

/-- One result element: its outbound link (the anchor child) and whether
the hover-trigger div is present. -/
structure ResultItem where
  resultLink : Option ResultLink
  triggerDiv : Bool
deriving Repr, DecidableEq

/-- The part of the page DOM the scraper reads on one attempt: the
results container with its matching result elements, and whether a
see-more button is present. -/
structure Dom where
  resultsContainer : Option (List ResultItem)
  seeMoreButton : Bool
deriving Repr, DecidableEq

/-- A successfully scraped result. -/
structure ScrapedResult where
  imageUrl : String
  pageUrl : String
deriving Repr, DecidableEq

/-- The mutable scraper fields the collection loop works on. -/
structure ScraperState where
  cursor : Nat
  scrapedResults : List ScrapedResult
deriving Repr, DecidableEq

/-- Every error the scraping core can throw, by source line. -/
inductive Err where
  | containerNull : Err
  | resultNotFound (cursor : Nat) : Err
  | linkNotFound (cursor : Nat) : Err
  | noHref : Err
  | invalidLink (cursor : Nat) : Err
  | invalidProtocol (protocol : String) : Err
  | nullValues (cursor : Nat) : Err
  | retriesExhausted (retries : Int) (last : Err) : Err
  | lastErrorUndefined : Err
  | uploadFailed (status : Nat) (statusText : String) : Err
deriving Repr, DecidableEq

/-- Translation of Scraper.scrapeSingleResult.  DOM reads are resolved
against dom; the scroll, hover and see-more-click side effects touch
only the page and are not recorded.  Returns the thrown error, if any,
together with the scraper state (this) after the call. -/
def scrapeSingleResult (dom : Dom) (cursor : Nat) (st : ScraperState) :
    Option Err × ScraperState :=
  match dom.resultsContainer with
  | none => (some .containerNull, st)
  | some elements =>
    match elements[cursor]? with
    | none => (some (.resultNotFound cursor), st)
    | some item =>
      match item.resultLink with
      | none => (some (.linkNotFound cursor), st)
      | some link =>
        if !(canParseLink link) then (some (.invalidLink cursor), st)
        else
          match parseResultLink link with
          | none => (some .noHref, st)
          | some parsed =>
            if jsTruthyStr parsed.imageUrl && jsTruthyStr parsed.pageUrl then
              let protocol := scrapedProtocol (parsed.imageUrl.getD "")
              if !(validProtocols.contains (lowerStr protocol)) then
                (some (.invalidProtocol protocol), st)
              else
                (none,
                 { st with
                   scrapedResults := st.scrapedResults ++
                     [{ imageUrl := parsed.imageUrl.getD ""
                        pageUrl := parsed.pageUrl.getD "" }] })
            else (some (.nullValues cursor), st)

/-! ### The retry controller -/

/-- How one retry call ends: a normal return, the throw of the
failed-after error wrapping the last underlying error, or the unguarded
dereference of a never-assigned lastError (a TypeError at runtime). -/
inductive RetryOutcome (ε α : Type) where
  | success (a : α) : RetryOutcome ε α
  | exhausted (retries : Int) (last : ε) : RetryOutcome ε α
  | lastErrorUndefined : RetryOutcome ε α
deriving Repr, DecidableEq

/-- The observable trace of one retry call: its outcome, the threaded
state after it, how often the operation ran, and the waits performed
between attempts. -/
structure RetryTrace (ε α σ : Type) where
  outcome : RetryOutcome ε α
  state : σ
  calls : Nat
  sleepsMs : List Nat
deriving Repr, DecidableEq

/-- One pass of the retry while-loop.  remaining counts how many further
attempts the loop condition still admits, lastError mirrors the variable
of that name, calls counts invocations of fn, and every wait between
attempts appends the fixed timeout to the sleep list. -/
def retryGo {σ ε α : Type} (fn : σ → Except ε α × σ) (retries : Int) (timeout : Nat) :
    Nat → σ → Nat → List Nat → Option ε → RetryTrace ε α σ
  | 0, s, calls, sleeps, last =>
    (match last with
     | some e => ⟨.exhausted retries e, s, calls, sleeps⟩
     | none => ⟨.lastErrorUndefined, s, calls, sleeps⟩)
  | remaining + 1, s, calls, sleeps, _ =>
    match fn s with
    | (.ok a, s1) => ⟨.success a, s1, calls + 1, sleeps⟩
    | (.error e, s1) =>
      match remaining with
      | 0 => ⟨.exhausted retries e, s1, calls + 1, sleeps⟩
      | r + 1 => retryGo fn retries timeout (r + 1) s1 (calls + 1) (sleeps ++ [timeout]) (some e)

/-- Translation of retry: invoke fn until it succeeds or retries
attempts have been made, waiting timeout milliseconds between attempts.
The operation is threaded through a state, modelling a closure over
mutable data. -/
def retry {σ ε α : Type} (fn : σ → Except ε α × σ) (retries : Int) (timeout : Nat)
    (s : σ) : RetryTrace ε α σ :=
  retryGo fn retries timeout retries.toNat s 0 [] none

/-- Timeout between scraping attempts (milliseconds). -/
def RESULT_TIMEOUT : Nat := 250

/-- Timeout between retry attempts when scraping fails (milliseconds). -/
def RETRY_TIMEOUT : Nat := 250

/-- Maximum number of retries if scraping a result fails. -/
def MAX_RETRIES : Int := 20

/-! ### Upload client -/

/-- One fetch request as uploadResults issues it.  The url is none when
the upload_url field was undefined at construction. -/
structure UploadRequest where
  url : Option String
  method : String
  headers : List (String × String)
  body : String
deriving Repr, DecidableEq

/-- The part of a fetch response the code inspects. -/
structure HttpResponse where
  status : Nat
  statusText : String
deriving Repr, DecidableEq

/-- Response.ok: a status in the inclusive range 200 to 299. -/
def respOk (r : HttpResponse) : Bool :=
  200 ≤ r.status && r.status ≤ 299

/-- The scraper fields the constructor fills from the token payload.
A none models a field left undefined by a payload that lacked it. -/
structure ScraperConfig where
  morphicId : Option Int
  resultsToScrape : Option Int
  uploadUrl : Option String
  token : String
  maxRetries : Int
deriving Repr, DecidableEq

/-- The wire form of one scraped result, as uploadResults maps it. -/
def backendResult (r : ScrapedResult) : Json :=
  .obj [("image_link", .str r.imageUrl), ("visible_link", .str r.pageUrl)]

/-- The JSON body uploadResults builds: the search id under morphic_id
and, under results, the backend results serialized into a single JSON
string.  JSON.stringify drops a key whose value is undefined, so an
undefined morphic_id leaves that key out. -/
def uploadBodyJson (morphicId : Option Int) (results : List ScrapedResult) : Json :=
  .obj ((match morphicId with
         | some v => [("morphic_id", Json.num v)]
         | none => []) ++
        [("results", Json.str (serializeJson (Json.arr (results.map backendResult))))])

/-- The single POST request uploadResults performs. -/
def uploadRequest (cfg : ScraperConfig) (results : List ScrapedResult) : UploadRequest :=
  { url := cfg.uploadUrl
    method := "POST"
    headers := [("Content-Type", "application/json; charset=utf-8"),
                ("X-Upload-Token", cfg.token)]
    body := serializeJson (uploadBodyJson cfg.morphicId results) }

/-- Translation of Scraper.uploadResults: map the scraped results to the
backend format, POST them once, and throw when the response is not ok.
Returns the thrown error, if any, and every request made. -/
def uploadResults (cfg : ScraperConfig) (results : List ScrapedResult)
    (net : UploadRequest → HttpResponse) : Option Err × List UploadRequest :=
  let req := uploadRequest cfg results
  let response := net req
  (if respOk response then none
   else some (.uploadFailed response.status response.statusText),
   [req])

/-! ### The collection loop -/

/-- The closure the collection loop hands to retry: scrape one result at
the current cursor against the page as it looks on that attempt (env
gives the page contents at each successive extraction attempt, counted
by the tick in the second component). -/
def scrapeOp (env : Nat → Dom) (s : ScraperState × Nat) :
    Except Err Unit × (ScraperState × Nat) :=
  ((match (scrapeSingleResult (env s.2) s.1.cursor s.1).1 with
    | some e => Except.error e
    | none => Except.ok ()),
   ((scrapeSingleResult (env s.2) s.1.cursor s.1).2, s.2 + 1))

/-- JavaScript comparison length < resultsToScrape: comparing with an
undefined limit is false. -/
def jsLtLimit (len : Nat) : Option Int → Bool
  | some l => (len : Int) < l
  | none => false

/-- Results still missing; the measure the loop's termination uses. -/
def limitGap : Option Int → Nat → Nat
  | some l, len => (l - (len : Int)).toNat
  | none, _ => 0

/-- How the collection while-loop ends: halted carries the error the
catch block rethrows (none when the loop condition became false),
finalState and tick give the scraper state and the number of extraction
attempts made, and states records the scraper state at each evaluation
of the loop condition. -/
structure LoopResult where
  halted : Option Err
  finalState : ScraperState
  tick : Nat
  states : List ScraperState
deriving Repr, DecidableEq

/-- Each scrapeSingleResult call either throws and leaves this unchanged,
or returns normally having appended exactly one result and left the
cursor alone. -/
theorem scrapeSingleResult_frame (dom : Dom) (cursor : Nat) (st : ScraperState) :
    ((scrapeSingleResult dom cursor st).1.isSome ∧
      (scrapeSingleResult dom cursor st).2 = st) ∨
    ∃ r, scrapeSingleResult dom cursor st =
      (none, ⟨st.cursor, st.scrapedResults ++ [r]⟩) := by
  rcases hc : dom.resultsContainer with _ | elements
  · left; simp [scrapeSingleResult, hc]
  · rcases hi : elements[cursor]? with _ | item
    · left; simp [scrapeSingleResult, hc, hi]
    · rcases hl : item.resultLink with _ | link
      · left; simp [scrapeSingleResult, hc, hi, hl]
      · cases hcp : canParseLink link with
        | false => left; simp [scrapeSingleResult, hc, hi, hl, hcp]
        | true =>
          rcases hp : parseResultLink link with _ | parsed
          · left; simp [scrapeSingleResult, hc, hi, hl, hcp, hp]
          · cases htr : jsTruthyStr parsed.imageUrl && jsTruthyStr parsed.pageUrl with
            | false => left; simp [scrapeSingleResult, hc, hi, hl, hcp, hp, htr]
            | true =>
              by_cases hvp :
                  lowerStr (scrapedProtocol (parsed.imageUrl.getD "")) ∈ validProtocols
              · right
                exact ⟨⟨parsed.imageUrl.getD "", parsed.pageUrl.getD ""⟩,
                  by simp [scrapeSingleResult, hc, hi, hl, hcp, hp, htr, hvp]⟩
              · left; simp [scrapeSingleResult, hc, hi, hl, hcp, hp, htr, hvp]

/-- Unfolding of one step of the retry loop. -/
theorem retryGo_succ {σ ε α : Type} (fn : σ → Except ε α × σ) (retries : Int)
    (timeout : Nat) (r : Nat) (s : σ) (calls : Nat) (sleeps : List Nat)
    (last : Option ε) :
    retryGo fn retries timeout (r + 1) s calls sleeps last =
      (match fn s with
       | (.ok a, s1) => ⟨.success a, s1, calls + 1, sleeps⟩
       | (.error e, s1) =>
         match r with
         | 0 => ⟨.exhausted retries e, s1, calls + 1, sleeps⟩
         | r2 + 1 =>
           retryGo fn retries timeout (r2 + 1) s1 (calls + 1) (sleeps ++ [timeout])
             (some e)) := by
  conv_lhs => rw [retryGo]

/-- Through a whole retry pass over scrapeOp, either the pass succeeded
and exactly one result was appended at an unchanged cursor, or every
attempt failed and the scraper state is exactly the entry state. -/
theorem retryGo_scrapeOp_state (env : Nat → Dom) (retries : Int) (timeout : Nat) :
    ∀ remaining (st : ScraperState) (tick calls : Nat) (sleeps : List Nat)
      (last : Option Err),
      (∃ r, (retryGo (scrapeOp env) retries timeout remaining (st, tick) calls sleeps last).state.1 =
          ⟨st.cursor, st.scrapedResults ++ [r]⟩ ∧
        (retryGo (scrapeOp env) retries timeout remaining (st, tick) calls sleeps last).outcome =
          .success ()) ∨
      ((retryGo (scrapeOp env) retries timeout remaining (st, tick) calls sleeps last).state.1 = st ∧
        ∀ a, (retryGo (scrapeOp env) retries timeout remaining (st, tick) calls sleeps last).outcome ≠
          .success a) := by
  intro remaining
  induction remaining with
  | zero =>
    intro st tick calls sleeps last
    right
    cases last <;> simp [retryGo]
  | succ r ih =>
    intro st tick calls sleeps last
    rcases scrapeSingleResult_frame (env tick) st.cursor st with ⟨hsome, hst⟩ | ⟨res, heq⟩
    · rcases h1 : (scrapeSingleResult (env tick) st.cursor st).1 with _ | e
      · rw [h1] at hsome; simp at hsome
      · have hfn : scrapeOp env (st, tick) = (.error e, (st, tick + 1)) := by
          simp [scrapeOp, h1, hst]
        rw [retryGo_succ, hfn]
        cases r with
        | zero =>
          right
          exact ⟨rfl, by intro a h; exact RetryOutcome.noConfusion h⟩
        | succ r2 => exact ih st (tick + 1) (calls + 1) (sleeps ++ [timeout]) (some e)
    · have hfn : scrapeOp env (st, tick) =
          (.ok (), (⟨st.cursor, st.scrapedResults ++ [res]⟩, tick + 1)) := by
        simp [scrapeOp, heq]
      left
      refine ⟨res, ?_, ?_⟩ <;> rw [retryGo_succ, hfn]

/-- Translation of the while-loop of Scraper.scrape: while fewer results
have been gathered than requested, run one retry pass; rethrow its
failure, otherwise advance the cursor, wait the inter-result pacing
delay (not recorded) and continue. -/
def scrapeLoop (env : Nat → Dom) (maxRetries : Int) (limit : Option Int)
    (st : ScraperState) (tick : Nat) (seen : List ScraperState) : LoopResult :=
  if h : jsLtLimit st.scrapedResults.length limit then
    match htr : (retry (scrapeOp env) maxRetries RETRY_TIMEOUT (st, tick)).outcome with
    | .success _ =>
      let st1 : ScraperState :=
        ⟨(retry (scrapeOp env) maxRetries RETRY_TIMEOUT (st, tick)).state.1.cursor + 1,
         (retry (scrapeOp env) maxRetries RETRY_TIMEOUT (st, tick)).state.1.scrapedResults⟩
      scrapeLoop env maxRetries limit st1
        (retry (scrapeOp env) maxRetries RETRY_TIMEOUT (st, tick)).state.2 (seen ++ [st1])
    | .exhausted r e =>
      ⟨some (.retriesExhausted r e),
       (retry (scrapeOp env) maxRetries RETRY_TIMEOUT (st, tick)).state.1,
       (retry (scrapeOp env) maxRetries RETRY_TIMEOUT (st, tick)).state.2, seen⟩
    | .lastErrorUndefined =>
      ⟨some .lastErrorUndefined,
       (retry (scrapeOp env) maxRetries RETRY_TIMEOUT (st, tick)).state.1,
       (retry (scrapeOp env) maxRetries RETRY_TIMEOUT (st, tick)).state.2, seen⟩
  else ⟨none, st, tick, seen⟩
termination_by limitGap limit st.scrapedResults.length
decreasing_by
  rcases retryGo_scrapeOp_state env maxRetries RETRY_TIMEOUT maxRetries.toNat st tick 0 [] none with
    ⟨r0, hstate, hout⟩ | ⟨hstate, hout⟩
  · have hlen : (retry (scrapeOp env) maxRetries RETRY_TIMEOUT
        (st, tick)).state.1.scrapedResults.length = st.scrapedResults.length + 1 := by
      rw [retry, hstate]
      simp
    rcases limit with _ | l
    · simp [jsLtLimit] at h
    · simp only [jsLtLimit, decide_eq_true_eq] at h
      simp only [limitGap, hlen]
      omega
  · exact absurd (by simpa [retry] using htr) (by simpa [retry] using hout _)

/-- The result of one call of Scraper.scrape: the error shown through the
overlay, if any (none models showComplete), the final scraper state, the
number of extraction attempts made, every upload request issued, and the
scraper states seen at the loop boundary. -/
structure ScrapeResult where
  outcome : Option Err
  finalState : ScraperState
  extractions : Nat
  uploads : List UploadRequest
  states : List ScraperState
deriving Repr, DecidableEq

/-- Translation of Scraper.scrape: run the collection loop from a fresh
state; on a loop error show it and stop with nothing uploaded, otherwise
upload once and show completion or the upload error. -/
def scrape (cfg : ScraperConfig) (env : Nat → Dom)
    (net : UploadRequest → HttpResponse) : ScrapeResult :=
  let st0 : ScraperState := ⟨0, []⟩
  let r := scrapeLoop env cfg.maxRetries cfg.resultsToScrape st0 0 [st0]
  match r.halted with
  | some e => ⟨some e, r.finalState, r.tick, [], r.states⟩
  | none =>
    let up := uploadResults cfg r.finalState.scrapedResults net
    ⟨up.1, r.finalState, r.tick, up.2, r.states⟩

/-! ### Construction and the whole run -/

/-- The failures that abort the run before any scraping: no token in the
URL, a token that does not decode, or a payload validateJWT rejects. -/
inductive InitErr where
  | tokenNotFound : InitErr
  | malformedToken : InitErr
  | tokenInvalid (e : TokenErr) : InitErr
deriving Repr, DecidableEq

/-- Translation of the Scraper constructor: extract the token from the
URL, decode it, validate the payload, and fill the scraper fields. -/
def scraperConstructor (href : String) (currentTime : Int) :
    Except InitErr ScraperConfig :=
  match getJWTToken href with
  | none => .error .tokenNotFound
  | some jwt =>
    match decodeJWT jwt with
    | none => .error .malformedToken
    | some payloadJson =>
      let payload := toPayload payloadJson
      match validateJWT currentTime payload with
      | some e => .error (.tokenInvalid e)
      | none =>
        .ok { morphicId := payload.search_id
              resultsToScrape := payload.limit
              uploadUrl := payload.upload_url
              token := jwt
              maxRetries := MAX_RETRIES }

/-- A whole run: either construction threw before any scraping, or the
scraper ran. -/
inductive RunOutcome where
  | initFailed (e : InitErr) : RunOutcome
  | ran (r : ScrapeResult) : RunOutcome
deriving Repr, DecidableEq

/-- How many extraction attempts a run made. -/
def RunOutcome.extractions : RunOutcome → Nat
  | .initFailed _ => 0
  | .ran r => r.extractions

/-- Every upload request a run issued. -/
def RunOutcome.uploads : RunOutcome → List UploadRequest
  | .initFailed _ => []
  | .ran r => r.uploads

/-- Construct the scraper from the page URL and run it, as the
browser-specific entry point does. -/
def runScraper (href : String) (currentTime : Int) (env : Nat → Dom)
    (net : UploadRequest → HttpResponse) : RunOutcome :=
  match scraperConstructor href currentTime with
  | .error e => .initFailed e
  | .ok cfg => .ran (scrape cfg env net)

/-! ### Analysis of the retry controller -/

/-- An operation for the retry contract theorems: it returns the outcome
scheduled for the current attempt and counts invocations in its state. -/
def attemptOp {ε α : Type} (outs : Nat → Except ε α) (n : Nat) : Except ε α × Nat :=
  (outs n, n + 1)

/-- The retry loop never invokes its operation more often than the
remaining attempt budget. -/
theorem retryGo_calls_le {σ ε α : Type} (fn : σ → Except ε α × σ) (retries : Int)
    (timeout : Nat) :
    ∀ remaining (s : σ) (calls : Nat) (sleeps : List Nat) (last : Option ε),
      (retryGo fn retries timeout remaining s calls sleeps last).calls ≤ calls + remaining := by
  intro remaining
  induction remaining with
  | zero => intro s calls sleeps last; cases last <;> simp [retryGo]
  | succ r ih =>
    intro s calls sleeps last
    rw [retryGo_succ]
    rcases hfn : fn s with ⟨e | a, s1⟩
    · cases r with
      | zero => simp
      | succ r2 =>
        calc (retryGo fn retries timeout (r2 + 1) s1 (calls + 1) (sleeps ++ [timeout])
                (some e)).calls
            ≤ (calls + 1) + (r2 + 1) := ih s1 (calls + 1) (sleeps ++ [timeout]) (some e)
          _ ≤ calls + (r2 + 1 + 1) := by omega
    · simp

/-- When attempt k is the first to succeed and lies within the budget,
the loop returns its value after exactly k+1 invocations with k waits of
the fixed timeout between them. -/
theorem retryGo_firstSuccess {ε α : Type} (outs : Nat → Except ε α) (retries : Int)
    (timeout : Nat) :
    ∀ (k remaining n calls : Nat) (sleeps : List Nat) (last : Option ε) (a : α),
      k < remaining → outs (n + k) = .ok a →
      (∀ j, j < k → ∃ e, outs (n + j) = .error e) →
      retryGo (attemptOp outs) retries timeout remaining n calls sleeps last =
        ⟨.success a, n + k + 1, calls + (k + 1), sleeps ++ List.replicate k timeout⟩ := by
  intro k
  induction k with
  | zero =>
    intro remaining n calls sleeps last a hk hok hfail
    cases remaining with
    | zero => omega
    | succ r =>
      have hok' : outs n = .ok a := by simpa using hok
      rw [retryGo_succ,
        show attemptOp outs n = (.ok a, n + 1) from by simp [attemptOp, hok']]
      simp
  | succ k ih =>
    intro remaining n calls sleeps last a hk hok hfail
    cases remaining with
    | zero => omega
    | succ r =>
      obtain ⟨e0, he0⟩ := hfail 0 (by omega)
      have he0' : outs n = .error e0 := by simpa using he0
      rw [retryGo_succ,
        show attemptOp outs n = (.error e0, n + 1) from by simp [attemptOp, he0']]
      cases r with
      | zero => omega
      | succ r2 =>
        show retryGo (attemptOp outs) retries timeout (r2 + 1) (n + 1) (calls + 1)
            (sleeps ++ [timeout]) (some e0) = _
        rw [ih (r2 + 1) (n + 1) (calls + 1) (sleeps ++ [timeout]) (some e0) a
          (by omega) (by rw [show n + 1 + k = n + (k + 1) from by omega]; exact hok)
          (fun j hj => by
            obtain ⟨e, he⟩ := hfail (j + 1) (by omega)
            exact ⟨e, by rw [show n + 1 + j = n + (j + 1) from by omega]; exact he⟩)]
        congr 1
        · omega
        · omega
        · rw [List.append_assoc, List.singleton_append, ← List.replicate_succ]

/-- When every attempt in the budget fails, the loop throws the
failed-after error wrapping the error of the last attempt, after exactly
remaining invocations with one fewer waits. -/
theorem retryGo_allFail {ε α : Type} (outs : Nat → Except ε α) (retries : Int)
    (timeout : Nat) :
    ∀ (remaining n calls : Nat) (sleeps : List Nat) (last : Option ε),
      1 ≤ remaining →
      (∀ j, j < remaining → ∃ e, outs (n + j) = .error e) →
      ∃ e, outs (n + (remaining - 1)) = .error e ∧
        retryGo (attemptOp outs) retries timeout remaining n calls sleeps last =
          ⟨.exhausted retries e, n + remaining, calls + remaining,
            sleeps ++ List.replicate (remaining - 1) timeout⟩ := by
  intro remaining
  induction remaining with
  | zero => intro n calls sleeps last h; omega
  | succ r ih =>
    intro n calls sleeps last _ hfail
    obtain ⟨e0, he0⟩ := hfail 0 (by omega)
    rw [show n + 0 = n from by omega] at he0
    have hstep : attemptOp outs n = (.error e0, n + 1) := by
      simp only [attemptOp, he0]
    cases r with
    | zero =>
      refine ⟨e0, ?_, ?_⟩
      · simpa using he0
      · rw [retryGo_succ, hstep]
        simp
    | succ r2 =>
      obtain ⟨e, he, hrec⟩ := ih (n + 1) (calls + 1) (sleeps ++ [timeout]) (some e0)
        (by omega)
        (fun j hj => by
          obtain ⟨e1, he1⟩ := hfail (j + 1) (by omega)
          exact ⟨e1, by rw [show n + 1 + j = n + (j + 1) from by omega]; exact he1⟩)
      refine ⟨e, ?_, ?_⟩
      · rw [show n + (r2 + 1 + 1 - 1) = n + 1 + (r2 + 1 - 1) from by omega]
        exact he
      · rw [retryGo_succ, hstep]
        show retryGo (attemptOp outs) retries timeout (r2 + 1) (n + 1) (calls + 1)
            (sleeps ++ [timeout]) (some e0) = _
        rw [hrec]
        congr 1
        · omega
        · omega
        · rw [List.append_assoc, List.singleton_append,
            show r2 + 1 + 1 - 1 = (r2 + 1 - 1) + 1 from by omega, List.replicate_succ]

/-- An operation that fails the same way on every state makes the whole
retry pass end exhausted with that error, for any positive budget. -/
theorem retryGo_constErr {σ ε α : Type} (fn : σ → Except ε α × σ) (retries : Int)
    (timeout : Nat) (e0 : ε) (g : σ → σ) (hfn : ∀ s, fn s = (.error e0, g s)) :
    ∀ remaining (s : σ) (calls : Nat) (sleeps : List Nat) (last : Option ε),
      1 ≤ remaining →
      (retryGo fn retries timeout remaining s calls sleeps last).outcome =
        .exhausted retries e0 := by
  intro remaining
  induction remaining with
  | zero => intro s calls sleeps last h; omega
  | succ r ih =>
    intro s calls sleeps last _
    rw [retryGo_succ, hfn s]
    cases r with
    | zero => rfl
    | succ r2 => exact ih (g s) (calls + 1) (sleeps ++ [timeout]) (some e0) (by omega)

/-! ### Analysis of the collection loop -/

/-- Unfolding of the loop once the target count is reached. -/
theorem scrapeLoop_done (env : Nat → Dom) (mr : Int) (lim : Option Int)
    (st : ScraperState) (tick : Nat) (seen : List ScraperState)
    (h : ¬ jsLtLimit st.scrapedResults.length lim = true) :
    scrapeLoop env mr lim st tick seen = ⟨none, st, tick, seen⟩ := by
  rw [scrapeLoop, dif_neg h]

/-- Unfolding of one loop iteration whose retry pass succeeds. -/
theorem scrapeLoop_succ (env : Nat → Dom) (mr : Int) (lim : Option Int)
    (st : ScraperState) (tick : Nat) (seen : List ScraperState)
    (h : jsLtLimit st.scrapedResults.length lim = true) (a : Unit)
    (hout : (retry (scrapeOp env) mr RETRY_TIMEOUT (st, tick)).outcome = .success a) :
    scrapeLoop env mr lim st tick seen =
      scrapeLoop env mr lim
        ⟨(retry (scrapeOp env) mr RETRY_TIMEOUT (st, tick)).state.1.cursor + 1,
         (retry (scrapeOp env) mr RETRY_TIMEOUT (st, tick)).state.1.scrapedResults⟩
        (retry (scrapeOp env) mr RETRY_TIMEOUT (st, tick)).state.2
        (seen ++ [⟨(retry (scrapeOp env) mr RETRY_TIMEOUT (st, tick)).state.1.cursor + 1,
          (retry (scrapeOp env) mr RETRY_TIMEOUT (st, tick)).state.1.scrapedResults⟩]) := by
  rw [scrapeLoop, dif_pos h]
  split
  · rfl
  · rename_i r e heq
    rw [hout] at heq
    exact RetryOutcome.noConfusion heq
  · rename_i heq
    rw [hout] at heq
    exact RetryOutcome.noConfusion heq

/-- Unfolding of one loop iteration whose retry pass is exhausted. -/
theorem scrapeLoop_exhausted (env : Nat → Dom) (mr : Int) (lim : Option Int)
    (st : ScraperState) (tick : Nat) (seen : List ScraperState)
    (h : jsLtLimit st.scrapedResults.length lim = true) (r : Int) (e : Err)
    (hout : (retry (scrapeOp env) mr RETRY_TIMEOUT (st, tick)).outcome = .exhausted r e) :
    scrapeLoop env mr lim st tick seen =
      ⟨some (.retriesExhausted r e),
       (retry (scrapeOp env) mr RETRY_TIMEOUT (st, tick)).state.1,
       (retry (scrapeOp env) mr RETRY_TIMEOUT (st, tick)).state.2, seen⟩ := by
  rw [scrapeLoop, dif_pos h]
  split
  · rename_i a heq
    rw [hout] at heq
    exact RetryOutcome.noConfusion heq
  · rename_i r2 e2 heq
    rw [hout] at heq
    cases heq
    rfl
  · rename_i heq
    rw [hout] at heq
    exact RetryOutcome.noConfusion heq

/-- Unfolding of one loop iteration whose retry pass hit the unassigned
lastError dereference. -/
theorem scrapeLoop_nullDeref (env : Nat → Dom) (mr : Int) (lim : Option Int)
    (st : ScraperState) (tick : Nat) (seen : List ScraperState)
    (h : jsLtLimit st.scrapedResults.length lim = true)
    (hout : (retry (scrapeOp env) mr RETRY_TIMEOUT (st, tick)).outcome = .lastErrorUndefined) :
    scrapeLoop env mr lim st tick seen =
      ⟨some .lastErrorUndefined,
       (retry (scrapeOp env) mr RETRY_TIMEOUT (st, tick)).state.1,
       (retry (scrapeOp env) mr RETRY_TIMEOUT (st, tick)).state.2, seen⟩ := by
  rw [scrapeLoop, dif_pos h]
  split
  · rename_i a heq
    rw [hout] at heq
    exact RetryOutcome.noConfusion heq
  · rename_i r2 e2 heq
    rw [hout] at heq
    exact RetryOutcome.noConfusion heq
  · rfl

/-- The state facts of retryGo_scrapeOp_state at the retry entry point. -/
theorem retry_scrapeOp_state (env : Nat → Dom) (mr : Int) (st : ScraperState) (tick : Nat) :
    (∃ r, (retry (scrapeOp env) mr RETRY_TIMEOUT (st, tick)).state.1 =
        ⟨st.cursor, st.scrapedResults ++ [r]⟩ ∧
      (retry (scrapeOp env) mr RETRY_TIMEOUT (st, tick)).outcome = .success ()) ∨
    ((retry (scrapeOp env) mr RETRY_TIMEOUT (st, tick)).state.1 = st ∧
      ∀ a, (retry (scrapeOp env) mr RETRY_TIMEOUT (st, tick)).outcome ≠ .success a) := by
  rw [retry]
  exact retryGo_scrapeOp_state env mr RETRY_TIMEOUT mr.toNat st tick 0 [] none

/-- A halted loop stopped while the collection was still incomplete. -/
theorem scrapeLoop_halted_lt (env : Nat → Dom) (mr : Int) (lim : Option Int) :
    ∀ st tick seen err, (scrapeLoop env mr lim st tick seen).halted = some err →
      jsLtLimit (scrapeLoop env mr lim st tick seen).finalState.scrapedResults.length
        lim = true := by
  intro st tick seen
  induction st, tick, seen using scrapeLoop.induct env mr lim with
  | case1 st tick seen h a htr st1 ih =>
    rw [scrapeLoop_succ env mr lim st tick seen h a htr]
    exact ih
  | case2 st tick seen h r e htr =>
    intro err _
    rw [scrapeLoop_exhausted env mr lim st tick seen h r e htr]
    rcases retry_scrapeOp_state env mr st tick with ⟨r0, hst1, hout⟩ | ⟨hst1, hout⟩
    · rw [htr] at hout
      exact RetryOutcome.noConfusion hout
    · show jsLtLimit
        ((retry (scrapeOp env) mr RETRY_TIMEOUT (st, tick)).state.1.scrapedResults.length)
        lim = true
      rw [hst1]
      exact h
  | case3 st tick seen h htr =>
    intro err _
    rw [scrapeLoop_nullDeref env mr lim st tick seen h htr]
    rcases retry_scrapeOp_state env mr st tick with ⟨r0, hst1, hout⟩ | ⟨hst1, hout⟩
    · rw [htr] at hout
      exact RetryOutcome.noConfusion hout
    · show jsLtLimit
        ((retry (scrapeOp env) mr RETRY_TIMEOUT (st, tick)).state.1.scrapedResults.length)
        lim = true
      rw [hst1]
      exact h
  | case4 st tick seen h =>
    intro err hh
    rw [scrapeLoop_done env mr lim st tick seen h] at hh
    exact Option.noConfusion hh

/-- The loop preserves the equality of cursor and collected count into
its final state. -/
theorem scrapeLoop_cursor_inv (env : Nat → Dom) (mr : Int) (lim : Option Int) :
    ∀ st tick seen, st.cursor = st.scrapedResults.length →
      (scrapeLoop env mr lim st tick seen).finalState.cursor =
        (scrapeLoop env mr lim st tick seen).finalState.scrapedResults.length := by
  intro st tick seen
  induction st, tick, seen using scrapeLoop.induct env mr lim with
  | case1 st tick seen h a htr st1 ih =>
    intro hinv
    rw [scrapeLoop_succ env mr lim st tick seen h a htr]
    apply ih
    rcases retry_scrapeOp_state env mr st tick with ⟨r0, hst1, hout⟩ | ⟨hst1, hout⟩
    · unfold_let st1
      rw [hst1]
      simp [hinv]
    · exact absurd htr (hout a)
  | case2 st tick seen h r e htr =>
    intro hinv
    rw [scrapeLoop_exhausted env mr lim st tick seen h r e htr]
    rcases retry_scrapeOp_state env mr st tick with ⟨r0, hst1, hout⟩ | ⟨hst1, hout⟩
    · rw [htr] at hout
      exact RetryOutcome.noConfusion hout
    · show (retry (scrapeOp env) mr RETRY_TIMEOUT (st, tick)).state.1.cursor = _
      rw [hst1]
      exact hinv
  | case3 st tick seen h htr =>
    intro hinv
    rw [scrapeLoop_nullDeref env mr lim st tick seen h htr]
    rcases retry_scrapeOp_state env mr st tick with ⟨r0, hst1, hout⟩ | ⟨hst1, hout⟩
    · rw [htr] at hout
      exact RetryOutcome.noConfusion hout
    · show (retry (scrapeOp env) mr RETRY_TIMEOUT (st, tick)).state.1.cursor = _
      rw [hst1]
      exact hinv
  | case4 st tick seen h =>
    intro hinv
    rw [scrapeLoop_done env mr lim st tick seen h]
    exact hinv

/-- The cursor equals the collected count in every state the loop
records, given it does on entry. -/
theorem scrapeLoop_states_inv (env : Nat → Dom) (mr : Int) (lim : Option Int) :
    ∀ st tick seen, st.cursor = st.scrapedResults.length →
      (∀ s ∈ seen, s.cursor = s.scrapedResults.length) →
      ∀ s ∈ (scrapeLoop env mr lim st tick seen).states,
        s.cursor = s.scrapedResults.length := by
  intro st tick seen
  induction st, tick, seen using scrapeLoop.induct env mr lim with
  | case1 st tick seen h a htr st1 ih =>
    intro hinv hseen
    rw [scrapeLoop_succ env mr lim st tick seen h a htr]
    rcases retry_scrapeOp_state env mr st tick with ⟨r0, hst1, hout⟩ | ⟨hst1, hout⟩
    · apply ih
      · unfold_let st1
        rw [hst1]
        simp [hinv]
      · intro s hs
        rcases List.mem_append.mp hs with hs1 | hs2
        · exact hseen s hs1
        · rcases List.mem_singleton.mp hs2 with rfl
          unfold_let st1
          rw [hst1]
          simp [hinv]
    · exact absurd htr (hout a)
  | case2 st tick seen h r e htr =>
    intro hinv hseen
    rw [scrapeLoop_exhausted env mr lim st tick seen h r e htr]
    exact hseen
  | case3 st tick seen h htr =>
    intro hinv hseen
    rw [scrapeLoop_nullDeref env mr lim st tick seen h htr]
    exact hseen
  | case4 st tick seen h =>
    intro hinv hseen
    rw [scrapeLoop_done env mr lim st tick seen h]
    exact hseen

/-- Collected count staying within the limit, stated over the JavaScript
optional limit. -/
def lenLe (lim : Option Int) (s : ScraperState) : Prop :=
  match lim with
  | some l => (s.scrapedResults.length : Int) ≤ l
  | none => True

/-- Every state the loop records keeps its collected count within the
limit, given the states seen so far do. -/
theorem scrapeLoop_states_bound (env : Nat → Dom) (mr : Int) (lim : Option Int) :
    ∀ st tick seen, (∀ s ∈ seen, lenLe lim s) →
      ∀ s ∈ (scrapeLoop env mr lim st tick seen).states, lenLe lim s := by
  intro st tick seen
  induction st, tick, seen using scrapeLoop.induct env mr lim with
  | case1 st tick seen h a htr st1 ih =>
    intro hseen
    rw [scrapeLoop_succ env mr lim st tick seen h a htr]
    rcases retry_scrapeOp_state env mr st tick with ⟨r0, hst1, hout⟩ | ⟨hst1, hout⟩
    · apply ih
      intro s hs
      rcases List.mem_append.mp hs with hs1 | hs2
      · exact hseen s hs1
      · rcases List.mem_singleton.mp hs2 with rfl
        rcases lim with _ | l
        · exact trivial
        · show ((retry (scrapeOp env) mr RETRY_TIMEOUT
              (st, tick)).state.1.scrapedResults.length : Int) ≤ l
          rw [hst1]
          simp only [jsLtLimit, decide_eq_true_eq] at h
          simp
          omega
    · exact absurd htr (hout a)
  | case2 st tick seen h r e htr =>
    intro hseen
    rw [scrapeLoop_exhausted env mr lim st tick seen h r e htr]
    exact hseen
  | case3 st tick seen h htr =>
    intro hseen
    rw [scrapeLoop_nullDeref env mr lim st tick seen h htr]
    exact hseen
  | case4 st tick seen h =>
    intro hseen
    rw [scrapeLoop_done env mr lim st tick seen h]
    exact hseen

/-- The recorded states form a chain under list prefix: the accumulated
results only ever grow, in order. -/
theorem scrapeLoop_states_chain (env : Nat → Dom) (mr : Int) (lim : Option Int) :
    ∀ st tick seen,
      List.Chain' (fun a b => a.scrapedResults <+: b.scrapedResults) seen →
      (∀ lastSeen ∈ seen.getLast?, lastSeen.scrapedResults <+: st.scrapedResults) →
      List.Chain' (fun a b => a.scrapedResults <+: b.scrapedResults)
        (scrapeLoop env mr lim st tick seen).states := by
  intro st tick seen
  induction st, tick, seen using scrapeLoop.induct env mr lim with
  | case1 st tick seen h a htr st1 ih =>
    intro hchain hlast
    rw [scrapeLoop_succ env mr lim st tick seen h a htr]
    rcases retry_scrapeOp_state env mr st tick with ⟨r0, hst1, hout⟩ | ⟨hst1, hout⟩
    · apply ih
      · rw [List.chain'_append]
        refine ⟨hchain, List.chain'_singleton _, ?_⟩
        intro x hx y hy
        simp only [List.head?_cons, Option.mem_def, Option.some.injEq] at hy
        subst hy
        unfold_let st1
        rw [hst1]
        exact (hlast x hx).trans (List.prefix_append _ _)
      · intro lastSeen hl
        rw [List.getLast?_concat] at hl
        simp only [Option.mem_def, Option.some.injEq] at hl
        subst hl
        exact List.prefix_rfl
    · exact absurd htr (hout a)
  | case2 st tick seen h r e htr =>
    intro hchain hlast
    rw [scrapeLoop_exhausted env mr lim st tick seen h r e htr]
    exact hchain
  | case3 st tick seen h htr =>
    intro hchain hlast
    rw [scrapeLoop_nullDeref env mr lim st tick seen h htr]
    exact hchain
  | case4 st tick seen h =>
    intro hchain hlast
    rw [scrapeLoop_done env mr lim st tick seen h]
    exact hchain

/-- The first recorded state survives the whole loop. -/
theorem scrapeLoop_states_head (env : Nat → Dom) (mr : Int) (lim : Option Int) :
    ∀ st tick seen, seen ≠ [] →
      (scrapeLoop env mr lim st tick seen).states.head? = seen.head? := by
  intro st tick seen
  induction st, tick, seen using scrapeLoop.induct env mr lim with
  | case1 st tick seen h a htr st1 ih =>
    intro hne
    rw [scrapeLoop_succ env mr lim st tick seen h a htr]
    rw [ih (by simp)]
    cases seen with
    | nil => exact absurd rfl hne
    | cons x xs => simp
  | case2 st tick seen h r e htr =>
    intro hne
    rw [scrapeLoop_exhausted env mr lim st tick seen h r e htr]
  | case3 st tick seen h htr =>
    intro hne
    rw [scrapeLoop_nullDeref env mr lim st tick seen h htr]
  | case4 st tick seen h =>
    intro hne
    rw [scrapeLoop_done env mr lim st tick seen h]

/-- The page shows, at the given cursor, a parsable result link whose
query parameters yield the given nonempty image and page urls. -/
def extractsImageUrl (d : Dom) (cursor : Nat) (u pu : String) : Prop :=
  ∃ elements item link,
    d.resultsContainer = some elements ∧
    elements[cursor]? = some item ∧
    item.resultLink = some link ∧
    canParseLink link = true ∧
    parseResultLink link = some ⟨some u, some pu⟩ ∧
    u ≠ "" ∧ pu ≠ ""

/-- An extraction that reaches the protocol check with a scheme outside
the allow-list throws the invalid-protocol error and leaves the state
unchanged. -/
theorem scrapeSingleResult_invalidProtocol (d : Dom) (cursor : Nat) (u pu : String)
    (st : ScraperState) (hex : extractsImageUrl d cursor u pu)
    (hbad : lowerStr (scrapedProtocol u) ∉ validProtocols) :
    scrapeSingleResult d cursor st = (some (.invalidProtocol (scrapedProtocol u)), st) := by
  obtain ⟨elements, item, link, hc, hi, hl, hcp, hp, hu, hpu⟩ := hex
  simp [scrapeSingleResult, hc, hi, hl, hcp, hp, jsTruthyStr, hu, hpu, hbad]

/-- A retry pass over an operation that keeps failing the same way from
every state satisfying an invariant ends exhausted with that error. -/
theorem retryGo_constErrP {σ ε α : Type} (fn : σ → Except ε α × σ) (retries : Int)
    (timeout : Nat) (e0 : ε) (P : σ → Prop)
    (hfn : ∀ s, P s → (fn s).1 = .error e0 ∧ P (fn s).2) :
    ∀ remaining (s : σ) (calls : Nat) (sleeps : List Nat) (last : Option ε),
      1 ≤ remaining → P s →
      (retryGo fn retries timeout remaining s calls sleeps last).outcome =
        .exhausted retries e0 := by
  intro remaining
  induction remaining with
  | zero => intro s calls sleeps last h _; omega
  | succ r ih =>
    intro s calls sleeps last _ hP
    have h1 := (hfn s hP).1
    have h2 := (hfn s hP).2
    rcases hfs : fn s with ⟨res, s1⟩
    rw [hfs] at h1 h2
    have hres : res = .error e0 := h1
    subst hres
    rw [retryGo_succ, hfs]
    cases r with
    | zero => rfl
    | succ r2 => exact ih s1 (calls + 1) (sleeps ++ [timeout]) (some e0) (by omega) h2

/-- One call of scrape either propagates the loop failure with no upload,
or uploads the completed batch exactly once. -/
theorem scrape_cases (cfg : ScraperConfig) (env : Nat → Dom)
    (net : UploadRequest → HttpResponse) :
    (∃ e, (scrapeLoop env cfg.maxRetries cfg.resultsToScrape ⟨0, []⟩ 0 [⟨0, []⟩]).halted =
        some e ∧
      scrape cfg env net =
        ⟨some e,
         (scrapeLoop env cfg.maxRetries cfg.resultsToScrape ⟨0, []⟩ 0 [⟨0, []⟩]).finalState,
         (scrapeLoop env cfg.maxRetries cfg.resultsToScrape ⟨0, []⟩ 0 [⟨0, []⟩]).tick, [],
         (scrapeLoop env cfg.maxRetries cfg.resultsToScrape ⟨0, []⟩ 0 [⟨0, []⟩]).states⟩) ∨
    ((scrapeLoop env cfg.maxRetries cfg.resultsToScrape ⟨0, []⟩ 0 [⟨0, []⟩]).halted = none ∧
      scrape cfg env net =
        ⟨(uploadResults cfg
            (scrapeLoop env cfg.maxRetries cfg.resultsToScrape ⟨0, []⟩ 0
              [⟨0, []⟩]).finalState.scrapedResults net).1,
         (scrapeLoop env cfg.maxRetries cfg.resultsToScrape ⟨0, []⟩ 0 [⟨0, []⟩]).finalState,
         (scrapeLoop env cfg.maxRetries cfg.resultsToScrape ⟨0, []⟩ 0 [⟨0, []⟩]).tick,
         (uploadResults cfg
            (scrapeLoop env cfg.maxRetries cfg.resultsToScrape ⟨0, []⟩ 0
              [⟨0, []⟩]).finalState.scrapedResults net).2,
         (scrapeLoop env cfg.maxRetries cfg.resultsToScrape ⟨0, []⟩ 0 [⟨0, []⟩]).states⟩) := by
  rcases hh : (scrapeLoop env cfg.maxRetries cfg.resultsToScrape ⟨0, []⟩ 0
      [⟨0, []⟩]).halted with _ | e
  · right
    exact ⟨rfl, by simp [scrape, hh]⟩
  · left
    exact ⟨e, rfl, by simp [scrape, hh]⟩

/-! ### Spec-side definitions for the upload wire format -/

/-- The wire shape the spec prescribes for one extracted result. -/
def specWireResult (r : ScrapedResult) : Json :=
  .obj [("image_link", .str r.imageUrl), ("visible_link", .str r.pageUrl)]

/-- The body the spec prescribes: a JSON object carrying the search id
under morphic_id and, under results, the JSON-encoded array of wire
results nested as a single JSON string (double encoding). -/
def specUploadBody (searchId : Int) (results : List ScrapedResult) : String :=
  serializeJson (.obj [("morphic_id", .num searchId),
    ("results", .str (serializeJson (.arr (results.map specWireResult))))])

set_option maxRecDepth 4000 in
/-- Spec scenario A: the exact body for search id 7 and the two example
results, with the double-encoded results string. -/
theorem uploadBody_scenario_A :
    specUploadBody 7 [⟨"https://a/x.jpg", "https://p/1"⟩, ⟨"https://b/y.png", "https://p/2"⟩] =
      "\x7b\"morphic_id\":7,\"results\":\"[\x7b\\\"image_link\\\":\\\"https://a/x.jpg\\\",\\\"visible_link\\\":\\\"https://p/1\\\"\x7d,\x7b\\\"image_link\\\":\\\"https://b/y.png\\\",\\\"visible_link\\\":\\\"https://p/2\\\"\x7d]\"\x7d" := by
  rfl

/-! ### Claim theorems -/

/-- C1: for every accumulated result list and present search id, the
upload operation issues exactly one request; that request is a POST to
the configured url, carries the raw token in the X-Upload-Token header,
and its body is exactly the spec wire format with the result array
double-encoded as a JSON string under results next to the id under
morphic_id; it throws if and only if the response status is outside the
success range, and then with the upload-failed error. -/
theorem C1_upload_contract (cfg : ScraperConfig) (results : List ScrapedResult)
    (net : UploadRequest → HttpResponse) (sid : Int) (hsid : cfg.morphicId = some sid) :
    (uploadResults cfg results net).2 = [uploadRequest cfg results] ∧
    (uploadRequest cfg results).method = "POST" ∧
    (uploadRequest cfg results).url = cfg.uploadUrl ∧
    (uploadRequest cfg results).headers =
      [("Content-Type", "application/json; charset=utf-8"),
       ("X-Upload-Token", cfg.token)] ∧
    (uploadRequest cfg results).body = specUploadBody sid results ∧
    ((uploadResults cfg results net).1.isSome ↔
      ¬(200 ≤ (net (uploadRequest cfg results)).status ∧
        (net (uploadRequest cfg results)).status ≤ 299)) ∧
    (∀ e, (uploadResults cfg results net).1 = some e →
      e = .uploadFailed (net (uploadRequest cfg results)).status
        (net (uploadRequest cfg results)).statusText) := by
  refine ⟨rfl, rfl, rfl, rfl, ?_, ?_, ?_⟩
  · simp only [uploadRequest, specUploadBody, uploadBodyJson, hsid]
    rfl
  · simp only [uploadResults, respOk, Bool.and_eq_true, decide_eq_true_eq]
    split
    · rename_i hcond; simp [hcond]
    · rename_i hcond; simp [hcond]
  · intro e he
    simp only [uploadResults] at he
    split at he
    · exact Option.noConfusion he
    · exact (Option.some_injective _ he).symm

/-- C1 witness: the contract applied to the scenario-A configuration. -/
theorem C1_upload_contract_witness :
    (uploadRequest ⟨some 7, some 2, some "https://api.example/u", "tok", 20⟩
        [⟨"https://a/x.jpg", "https://p/1"⟩, ⟨"https://b/y.png", "https://p/2"⟩]).body =
      specUploadBody 7
        [⟨"https://a/x.jpg", "https://p/1"⟩, ⟨"https://b/y.png", "https://p/2"⟩] :=
  (C1_upload_contract ⟨some 7, some 2, some "https://api.example/u", "tok", 20⟩
    [⟨"https://a/x.jpg", "https://p/1"⟩, ⟨"https://b/y.png", "https://p/2"⟩]
    (fun _ => ⟨200, "OK"⟩) 7 rfl).2.2.2.2.1

/-- C2: a run whose collection loop exhausted the retry budget at some
position ends failed with that error, issues no upload at all (no
partial upload), and stops with the collection incomplete and the cursor
still at the stuck position rather than skipping past it. -/
theorem C2_abandon_on_exhaustion (cfg : ScraperConfig) (env : Nat → Dom)
    (net : UploadRequest → HttpResponse) (n : Int) (e : Err)
    (hfail : (scrape cfg env net).outcome = some (.retriesExhausted n e)) :
    (scrape cfg env net).uploads = [] ∧
    jsLtLimit (scrape cfg env net).finalState.scrapedResults.length
      cfg.resultsToScrape = true ∧
    (scrape cfg env net).finalState.cursor =
      (scrape cfg env net).finalState.scrapedResults.length := by
  rcases scrape_cases cfg env net with ⟨e2, hh, heq⟩ | ⟨hh, heq⟩
  · rw [heq] at hfail ⊢
    refine ⟨rfl, ?_, ?_⟩
    · exact scrapeLoop_halted_lt env cfg.maxRetries cfg.resultsToScrape
        ⟨0, []⟩ 0 [⟨0, []⟩] e2 hh
    · exact scrapeLoop_cursor_inv env cfg.maxRetries cfg.resultsToScrape
        ⟨0, []⟩ 0 [⟨0, []⟩] rfl
  · exfalso
    rw [heq] at hfail
    have hup : (uploadResults cfg
        (scrapeLoop env cfg.maxRetries cfg.resultsToScrape ⟨0, []⟩ 0
          [⟨0, []⟩]).finalState.scrapedResults net).1 =
        some (.retriesExhausted n e) := hfail
    simp only [uploadResults] at hup
    split at hup
    · exact Option.noConfusion hup
    · simp at hup

/-- C2 witness: a page with no results container at all exhausts the
budget at cursor 0 and the run uploads nothing. -/
theorem C2_abandon_on_exhaustion_witness :
    (scrape ⟨some 7, some 1, some "https://api.example/u", "tok", 2⟩
        (fun _ => ⟨none, false⟩) (fun _ => ⟨200, "OK"⟩)).uploads = [] ∧
    jsLtLimit (scrape ⟨some 7, some 1, some "https://api.example/u", "tok", 2⟩
        (fun _ => ⟨none, false⟩) (fun _ => ⟨200, "OK"⟩)).finalState.scrapedResults.length
      (some 1) = true ∧
    (scrape ⟨some 7, some 1, some "https://api.example/u", "tok", 2⟩
        (fun _ => ⟨none, false⟩) (fun _ => ⟨200, "OK"⟩)).finalState.cursor =
      (scrape ⟨some 7, some 1, some "https://api.example/u", "tok", 2⟩
        (fun _ => ⟨none, false⟩)
        (fun _ => ⟨200, "OK"⟩)).finalState.scrapedResults.length := by
  have hout : (retry (scrapeOp (fun _ => (⟨none, false⟩ : Dom))) 2 RETRY_TIMEOUT
      ((⟨0, []⟩ : ScraperState), 0)).outcome = .exhausted 2 .containerNull := by rfl
  have hloop := scrapeLoop_exhausted (fun _ => (⟨none, false⟩ : Dom)) 2 (some 1)
    ⟨0, []⟩ 0 [⟨0, []⟩] (by rfl) 2 .containerNull hout
  have hfail : (scrape ⟨some 7, some 1, some "https://api.example/u", "tok", 2⟩
      (fun _ => ⟨none, false⟩) (fun _ => ⟨200, "OK"⟩)).outcome =
      some (.retriesExhausted 2 .containerNull) := by
    rcases scrape_cases ⟨some 7, some 1, some "https://api.example/u", "tok", 2⟩
        (fun _ => ⟨none, false⟩) (fun _ => ⟨200, "OK"⟩) with ⟨e2, hh, heq⟩ | ⟨hh, heq⟩
    · rw [heq]
      rw [hloop] at hh
      simp only [Option.some.injEq] at hh
      simp [hh]
    · rw [hloop] at hh
      exact Option.noConfusion hh
  exact C2_abandon_on_exhaustion ⟨some 7, some 1, some "https://api.example/u", "tok", 2⟩
    (fun _ => ⟨none, false⟩) (fun _ => ⟨200, "OK"⟩) 2 .containerNull hfail

/-- C3: starting from a fresh collection state and a nonnegative limit,
every state the loop reaches keeps the cursor equal to the number of
collected results (so a run of N successful extractions leaves the
cursor at N) and never holds more than the limit; the recorded states
grow by appending only, preserving extraction order, from the initial
empty state. -/
theorem C3_collection_invariants (cfg : ScraperConfig) (env : Nat → Dom)
    (net : UploadRequest → HttpResponse) (L : Int)
    (hL : cfg.resultsToScrape = some L) (hL0 : 0 ≤ L) :
    (∀ s ∈ (scrape cfg env net).states,
      s.cursor = s.scrapedResults.length ∧ (s.scrapedResults.length : Int) ≤ L) ∧
    List.Chain' (fun a b => a.scrapedResults <+: b.scrapedResults)
      (scrape cfg env net).states ∧
    (scrape cfg env net).states.head? = some ⟨0, []⟩ ∧
    (scrape cfg env net).finalState.cursor =
      (scrape cfg env net).finalState.scrapedResults.length := by
  have hse : (scrape cfg env net).states =
      (scrapeLoop env cfg.maxRetries cfg.resultsToScrape ⟨0, []⟩ 0 [⟨0, []⟩]).states ∧
      (scrape cfg env net).finalState =
      (scrapeLoop env cfg.maxRetries cfg.resultsToScrape ⟨0, []⟩ 0 [⟨0, []⟩]).finalState := by
    rcases scrape_cases cfg env net with ⟨e2, hh, heq⟩ | ⟨hh, heq⟩ <;> rw [heq] <;>
      exact ⟨rfl, rfl⟩
  obtain ⟨hs, hf⟩ := hse
  rw [hs, hf]
  refine ⟨?_, ?_, ?_, ?_⟩
  · intro s hsmem
    refine ⟨scrapeLoop_states_inv env cfg.maxRetries cfg.resultsToScrape ⟨0, []⟩ 0
      [⟨0, []⟩] rfl (by intro s2 h2; rcases List.mem_singleton.mp h2 with rfl; rfl)
      s hsmem, ?_⟩
    have hb := scrapeLoop_states_bound env cfg.maxRetries cfg.resultsToScrape ⟨0, []⟩ 0
      [⟨0, []⟩] (by
        intro s2 h2
        rcases List.mem_singleton.mp h2 with rfl
        rw [hL]
        show ((0 : Nat) : Int) ≤ L
        simpa using hL0) s hsmem
    rw [hL] at hb
    exact hb
  · exact scrapeLoop_states_chain env cfg.maxRetries cfg.resultsToScrape ⟨0, []⟩ 0
      [⟨0, []⟩] (List.chain'_singleton _) (by
        intro lastSeen hl
        simp only [List.getLast?_singleton, Option.mem_def, Option.some.injEq] at hl
        subst hl
        exact List.prefix_rfl)
  · rw [scrapeLoop_states_head env cfg.maxRetries cfg.resultsToScrape ⟨0, []⟩ 0
      [⟨0, []⟩] (by simp)]
    rfl
  · exact scrapeLoop_cursor_inv env cfg.maxRetries cfg.resultsToScrape ⟨0, []⟩ 0
      [⟨0, []⟩] rfl

/-- C3 witness: the invariants on a concrete two-result run. -/
theorem C3_collection_invariants_witness :
    (∀ s ∈ (scrape ⟨some 7, some 2, some "https://api.example/u", "tok", 20⟩
        (fun _ => ⟨some [⟨some ⟨some "/imgres?imgurl=https://a/x.jpg&amp;imgrefurl=https://p/1"⟩, true⟩,
          ⟨some ⟨some "/imgres?imgurl=https://b/y.png&amp;imgrefurl=https://p/2"⟩, false⟩], false⟩)
        (fun _ => ⟨200, "OK"⟩)).states,
      s.cursor = s.scrapedResults.length ∧ (s.scrapedResults.length : Int) ≤ 2) ∧
    List.Chain' (fun a b => a.scrapedResults <+: b.scrapedResults)
      (scrape ⟨some 7, some 2, some "https://api.example/u", "tok", 20⟩
        (fun _ => ⟨some [⟨some ⟨some "/imgres?imgurl=https://a/x.jpg&amp;imgrefurl=https://p/1"⟩, true⟩,
          ⟨some ⟨some "/imgres?imgurl=https://b/y.png&amp;imgrefurl=https://p/2"⟩, false⟩], false⟩)
        (fun _ => ⟨200, "OK"⟩)).states ∧
    (scrape ⟨some 7, some 2, some "https://api.example/u", "tok", 20⟩
        (fun _ => ⟨some [⟨some ⟨some "/imgres?imgurl=https://a/x.jpg&amp;imgrefurl=https://p/1"⟩, true⟩,
          ⟨some ⟨some "/imgres?imgurl=https://b/y.png&amp;imgrefurl=https://p/2"⟩, false⟩], false⟩)
        (fun _ => ⟨200, "OK"⟩)).states.head? = some ⟨0, []⟩ ∧
    (scrape ⟨some 7, some 2, some "https://api.example/u", "tok", 20⟩
        (fun _ => ⟨some [⟨some ⟨some "/imgres?imgurl=https://a/x.jpg&amp;imgrefurl=https://p/1"⟩, true⟩,
          ⟨some ⟨some "/imgres?imgurl=https://b/y.png&amp;imgrefurl=https://p/2"⟩, false⟩], false⟩)
        (fun _ => ⟨200, "OK"⟩)).finalState.cursor =
      (scrape ⟨some 7, some 2, some "https://api.example/u", "tok", 20⟩
        (fun _ => ⟨some [⟨some ⟨some "/imgres?imgurl=https://a/x.jpg&amp;imgrefurl=https://p/1"⟩, true⟩,
          ⟨some ⟨some "/imgres?imgurl=https://b/y.png&amp;imgrefurl=https://p/2"⟩, false⟩], false⟩)
        (fun _ => ⟨200, "OK"⟩)).finalState.scrapedResults.length :=
  C3_collection_invariants ⟨some 7, some 2, some "https://api.example/u", "tok", 20⟩
    (fun _ => ⟨some [⟨some ⟨some "/imgres?imgurl=https://a/x.jpg&amp;imgrefurl=https://p/1"⟩, true⟩,
      ⟨some ⟨some "/imgres?imgurl=https://b/y.png&amp;imgrefurl=https://p/2"⟩, false⟩], false⟩)
    (fun _ => ⟨200, "OK"⟩) 2 rfl (by omega)

/-- C5: an image url whose computed protocol is outside the http, https,
ftp allow-list makes the single-result extraction throw the transient
invalid-protocol error without touching the state; and a run whose page
yields such a scheme at cursor 0 on every attempt ends failed with the
exhaustion error wrapping the invalid-protocol error, with no upload
call made. -/
theorem C5_invalid_protocol_rejected :
    (∀ (d : Dom) (cursor : Nat) (u pu : String) (st : ScraperState),
      extractsImageUrl d cursor u pu →
      lowerStr (scrapedProtocol u) ∉ validProtocols →
      scrapeSingleResult d cursor st = (some (.invalidProtocol (scrapedProtocol u)), st)) ∧
    (∀ (cfg : ScraperConfig) (env : Nat → Dom) (net : UploadRequest → HttpResponse)
      (u pu : String) (L : Int),
      cfg.resultsToScrape = some L → 1 ≤ L → 1 ≤ cfg.maxRetries →
      (∀ t, extractsImageUrl (env t) 0 u pu) →
      lowerStr (scrapedProtocol u) ∉ validProtocols →
      (scrape cfg env net).outcome =
        some (.retriesExhausted cfg.maxRetries (.invalidProtocol (scrapedProtocol u))) ∧
      (scrape cfg env net).uploads = []) := by
  constructor
  · exact fun d cursor u pu st hex hbad =>
      scrapeSingleResult_invalidProtocol d cursor u pu st hex hbad
  · intro cfg env net u pu L hL hL1 hmr henv hbad
    have hconst : ∀ s : ScraperState × Nat, s.1.cursor = 0 →
        (scrapeOp env s).1 = .error (.invalidProtocol (scrapedProtocol u)) ∧
        (scrapeOp env s).2.1.cursor = 0 := by
      intro s hc
      have hex : extractsImageUrl (env s.2) s.1.cursor u pu := by
        rw [hc]
        exact henv s.2
      have hone := scrapeSingleResult_invalidProtocol (env s.2) s.1.cursor u pu s.1
        hex hbad
      constructor
      · simp [scrapeOp, hone]
      · rw [hc] at hone
        simp [scrapeOp, hone, hc]
    have hout : (retry (scrapeOp env) cfg.maxRetries RETRY_TIMEOUT
        ((⟨0, []⟩ : ScraperState), 0)).outcome =
        .exhausted cfg.maxRetries (.invalidProtocol (scrapedProtocol u)) := by
      rw [retry]
      exact retryGo_constErrP (scrapeOp env) cfg.maxRetries RETRY_TIMEOUT _
        (fun s => s.1.cursor = 0) hconst cfg.maxRetries.toNat (⟨0, []⟩, 0) 0 [] none
        (by omega) rfl
    have hcond : jsLtLimit (([] : List ScrapedResult)).length cfg.resultsToScrape
        = true := by
      rw [hL]
      simp [jsLtLimit]
      omega
    have hloop := scrapeLoop_exhausted env cfg.maxRetries cfg.resultsToScrape ⟨0, []⟩ 0
      [⟨0, []⟩] hcond cfg.maxRetries (.invalidProtocol (scrapedProtocol u)) hout
    rcases scrape_cases cfg env net with ⟨e2, hh, heq⟩ | ⟨hh, heq⟩
    · rw [hloop] at hh
      simp only [Option.some.injEq] at hh
      rw [heq]
      exact ⟨by simp [hh], rfl⟩
    · rw [hloop] at hh
      exact Option.noConfusion hh

/-- C4 (amended with a positive budget): with at least one allowed
attempt, retry never invokes the operation more often than the budget,
returns the first success immediately with one fixed-length wait between
each pair of consecutive attempts and none after the last, and on
exhaustion throws the failed-after error wrapping the error of the last
attempt, after exactly maxAttempts invocations. -/
theorem C4_retry_contract {ε α : Type} (outs : Nat → Except ε α) (retries : Int)
    (timeout : Nat) (hpos : 1 ≤ retries) :
    (retry (attemptOp outs) retries timeout 0).calls ≤ retries.toNat ∧
    (∀ (k : Nat) (a : α), (k : Int) < retries → outs k = .ok a →
      (∀ j, j < k → ∃ e, outs j = .error e) →
      retry (attemptOp outs) retries timeout 0 =
        ⟨.success a, k + 1, k + 1, List.replicate k timeout⟩) ∧
    ((∀ j : Nat, (j : Int) < retries → ∃ e, outs j = .error e) →
      ∃ e, outs (retries.toNat - 1) = .error e ∧
        retry (attemptOp outs) retries timeout 0 =
          ⟨.exhausted retries e, retries.toNat, retries.toNat,
            List.replicate (retries.toNat - 1) timeout⟩) := by
  refine ⟨?_, ?_, ?_⟩
  · simpa [retry] using
      retryGo_calls_le (attemptOp outs) retries timeout retries.toNat 0 0 [] none
  · intro k a hk hok hfail
    rw [retry]
    have := retryGo_firstSuccess outs retries timeout k retries.toNat 0 0 [] none a
      (by omega) (by simpa using hok) (fun j hj => by simpa using hfail j hj)
    simpa using this
  · intro hfail
    obtain ⟨e, he, heq⟩ := retryGo_allFail outs retries timeout retries.toNat 0 0 [] none
      (by omega) (fun j hj => by exact (by simpa using hfail j (by omega)))
    refine ⟨e, by simpa using he, ?_⟩
    rw [retry]
    simpa using heq

/-- C4 witness: with a budget of 4 and an operation that fails twice and
succeeds on its third invocation, retry returns that success after three
invocations and two fixed waits. -/
theorem C4_retry_contract_witness :
    retry (attemptOp (fun n =>
        if n = 2 then (Except.ok 7 : Except Err Nat) else .error (.resultNotFound n)))
      4 250 0 = ⟨.success 7, 3, 3, List.replicate 2 250⟩ := by
  have h := (C4_retry_contract (fun n =>
      if n = 2 then (Except.ok 7 : Except Err Nat) else .error (.resultNotFound n))
    4 250 (by norm_num)).2.1 2 7 (by norm_num) (by norm_num)
    (fun j hj => ⟨.resultNotFound j, by interval_cases j <;> rfl⟩)
  simpa using h

/-- C4 counterexample: at maxAttempts 0 with an always-failing operation
the claimed failed-after error never appears; the operation is not
invoked and the failure is the unassigned-lastError dereference. -/
theorem C4_retry_contract_cex :
    (retry (attemptOp (fun _ => (Except.error Err.containerNull : Except Err Nat)))
      0 250 0).calls = 0 ∧
    (retry (attemptOp (fun _ => (Except.error Err.containerNull : Except Err Nat)))
      0 250 0).outcome = .lastErrorUndefined ∧
    ∀ (r : Int) (e : Err),
      (retry (attemptOp (fun _ => (Except.error Err.containerNull : Except Err Nat)))
        0 250 0).outcome ≠ .exhausted r e := by
  refine ⟨rfl, rfl, ?_⟩
  intro r e h
  exact RetryOutcome.noConfusion h

/-- C9: each single-result extraction leaves the cursor unchanged; when
it throws, the accumulated list is exactly as before (error atomicity),
and when it returns normally exactly one result has been appended. -/
theorem C9_extraction_frame (dom : Dom) (cursor : Nat) (st : ScraperState) :
    (scrapeSingleResult dom cursor st).2.cursor = st.cursor ∧
    ((scrapeSingleResult dom cursor st).1.isSome →
      (scrapeSingleResult dom cursor st).2 = st) ∧
    ((scrapeSingleResult dom cursor st).1 = none →
      ∃ r, (scrapeSingleResult dom cursor st).2 =
        ⟨st.cursor, st.scrapedResults ++ [r]⟩) := by
  rcases scrapeSingleResult_frame dom cursor st with ⟨hsome, hst⟩ | ⟨r, heq⟩
  · exact ⟨by rw [hst], fun _ => hst, fun h => by rw [h] at hsome; simp at hsome⟩
  · refine ⟨by rw [heq], fun hs => ?_, fun _ => ⟨r, by rw [heq]⟩⟩
    rw [heq] at hs
    simp at hs

/-- C6: a token whose expiry is at or before the current time fails
validation with the expired error; the run then stops at construction,
before any extraction attempt, and uploads nothing. -/
theorem C6_expired_token_blocks_run (href : String) (currentTime : Int)
    (env : Nat → Dom) (net : UploadRequest → HttpResponse) (jwt : String) (json : Json)
    (e : Int) (hjwt : getJWTToken href = some jwt) (hdec : decodeJWT jwt = some json)
    (hexp : (toPayload json).exp = some e) (hle : e ≤ currentTime) :
    runScraper href currentTime env net = .initFailed (.tokenInvalid .expired) ∧
    (runScraper href currentTime env net).extractions = 0 ∧
    (runScraper href currentTime env net).uploads = [] := by
  have hc : jsGeExp currentTime (toPayload json).exp = true := by
    rw [hexp]
    simp [jsGeExp]
    omega
  have hval : validateJWT currentTime (toPayload json) = some .expired := by
    simp [validateJWT, hc]
  have hcons : scraperConstructor href currentTime = .error (.tokenInvalid .expired) := by
    simp [scraperConstructor, hjwt, hdec, hval]
  refine ⟨?_, ?_, ?_⟩ <;>
    simp [runScraper, hcons, RunOutcome.extractions, RunOutcome.uploads]

/-- C6 witness: a concrete page URL carrying a token that expired at
second 1, run at second 100. -/
theorem C6_expired_token_blocks_run_witness :
    runScraper "https://g/?morphic:h.eyJleHAiOjF9.s" 100 (fun _ => ⟨none, false⟩)
        (fun _ => ⟨200, "OK"⟩) = .initFailed (.tokenInvalid .expired) ∧
    (runScraper "https://g/?morphic:h.eyJleHAiOjF9.s" 100 (fun _ => ⟨none, false⟩)
        (fun _ => ⟨200, "OK"⟩)).extractions = 0 ∧
    (runScraper "https://g/?morphic:h.eyJleHAiOjF9.s" 100 (fun _ => ⟨none, false⟩)
        (fun _ => ⟨200, "OK"⟩)).uploads = [] :=
  C6_expired_token_blocks_run "https://g/?morphic:h.eyJleHAiOjF9.s" 100
    (fun _ => ⟨none, false⟩) (fun _ => ⟨200, "OK"⟩) "h.eyJleHAiOjF9.s"
    (Json.obj [("exp", Json.num 1)]) 1 rfl rfl rfl (by omega)

/-- C7 (amended): for an unexpired payload, an audience present with a
non-empty value differing from the expected constant fails with the
audience mismatch, and symmetrically for the issuer once the audience
guard passes; an absent audience skips its check and validation then
succeeds provided the issuer guard also passes.  The amendment: due to
JavaScript truthiness an empty-string audience or issuer, though
present, also skips its check. -/
theorem C7_audience_issuer_checks (p : JWTPayload) (currentTime e : Int)
    (hexp : p.exp = some e) (hlt : currentTime < e) :
    (∀ a, p.aud = some a → a ≠ "" → a ≠ EXPECTED_AUDIENCE →
      validateJWT currentTime p = some (.audienceMismatch a)) ∧
    ((p.aud = none ∨ p.aud = some "" ∨ p.aud = some EXPECTED_AUDIENCE) →
      ∀ i, p.iss = some i → i ≠ "" → i ≠ EXPECTED_ISSUER →
      validateJWT currentTime p = some (.issuerMismatch i)) ∧
    (p.aud = none →
      (p.iss = none ∨ p.iss = some "" ∨ p.iss = some EXPECTED_ISSUER) →
      validateJWT currentTime p = none) := by
  have hc : jsGeExp currentTime p.exp = false := by
    rw [hexp]
    simp [jsGeExp]
    omega
  refine ⟨?_, ?_, ?_⟩
  · intro a ha hne hneq
    simp [validateJWT, hc, ha, jsTruthyStr, hne, hneq]
  · intro haud i hi hne hneq
    rcases haud with h | h | h <;>
      simp [validateJWT, hc, h, hi, jsTruthyStr, hne, hneq, EXPECTED_AUDIENCE]
  · intro haud hiss
    rcases hiss with h | h | h <;>
      simp [validateJWT, hc, haud, h, jsTruthyStr, EXPECTED_ISSUER]

/-- C7 witness: a non-empty wrong audience on an unexpired payload is
rejected with the audience mismatch. -/
theorem C7_audience_issuer_checks_witness :
    validateJWT 0 ⟨none, none, none, some 100, some "evil", none⟩ =
      some (.audienceMismatch "evil") :=
  (C7_audience_issuer_checks ⟨none, none, none, some 100, some "evil", none⟩ 0 100
    rfl (by omega)).1 "evil" rfl (by decide) (by decide)

/-- C7 counterexample: an empty-string audience is present and differs
from the expected constant, yet validation succeeds, because the
JavaScript truthiness guard treats the empty string like an absent
field. -/
theorem C7_audience_issuer_checks_cex :
    (⟨none, none, none, some 100, some "", none⟩ : JWTPayload).aud = some "" ∧
    "" ≠ EXPECTED_AUDIENCE ∧
    validateJWT 0 ⟨none, none, none, some 100, some "", none⟩ = none := by
  refine ⟨rfl, by decide, rfl⟩

/-- The expected CapabilityToken structure of the spec's data model: an
object holding integer search id, result limit and expiry, a string
upload url, and, when present, string audience and issuer fields. -/
def CapabilityTokenShape (j : Json) : Bool :=
  match j with
  | .obj fields =>
    ((jsonLookup fields "search_id").bind asInt).isSome &&
    ((jsonLookup fields "limit").bind asInt).isSome &&
    ((jsonLookup fields "upload_url").bind asStr).isSome &&
    ((jsonLookup fields "exp").bind asInt).isSome &&
    (match jsonLookup fields "aud" with
     | none => true
     | some v => (asStr v).isSome) &&
    (match jsonLookup fields "iss" with
     | none => true
     | some v => (asStr v).isSome)
  | _ => false

/-- C8 (amended): decoding fails exactly when the second dot-segment is
missing or its base64url payload does not decode to JSON text; no
validation of the expected CapabilityToken field structure is performed,
so decoding also succeeds on tokens whose payload is JSON lacking every
required field. -/
theorem C8_decode_no_structure_check :
    (∀ t : String, (decodeJWT t).isSome = true ↔
      ∃ payload, (splitOnChar '.' t.toList)[1]? = some payload ∧
        ((atob (String.mk (replaceAll ['_'] ['/'] (replaceAll ['-'] ['+'] payload)))).bind
          jsonParse).isSome = true) ∧
    (∃ (t : String) (j : Json), decodeJWT t = some j ∧ CapabilityTokenShape j = false) := by
  constructor
  · intro t
    unfold decodeJWT
    simp only [String.toList]
    rcases h1 : (splitOnChar '.' t.data)[1]? with _ | payload
    · simp [h1]
    · rcases h2 : atob (String.mk (replaceAll ['_'] ['/']
          (replaceAll ['-'] ['+'] payload))) with _ | decoded
      · simp [h1, h2]
      · simp [h1, h2]
  · exact ⟨"a.e30.c", .obj [], rfl, rfl⟩

/-- C8 counterexample: the token a.e30.c decodes (its payload is the
empty JSON object), although it does not decode to the expected
CapabilityToken structure — the claimed malformed-token failure does not
happen. -/
theorem C8_decode_no_structure_check_cex :
    decodeJWT "a.e30.c" = some (.obj []) ∧
    CapabilityTokenShape (.obj []) = false := ⟨rfl, rfl⟩

/-- Spec scenario C: a payload with the audience absent entirely passes
validation. -/
theorem validate_scenario_C :
    validateJWT 0 (toPayload (Json.obj [("exp", Json.num 100)])) = none := rfl

/-- Spec scenario B ingredient: an x-raw-image link is extracted,
carries a scheme outside the allow-list, and the extraction rejects it
leaving the state unchanged. -/
theorem xraw_image_example :
    extractsImageUrl
      ⟨some [⟨some ⟨some "/imgres?imgurl=x-raw-image:///abc&amp;imgrefurl=https://p/1"⟩,
        false⟩], true⟩ 0 "x-raw-image:///abc" "https://p/1" ∧
    lowerStr (scrapedProtocol "x-raw-image:///abc") ∉ validProtocols ∧
    scrapeSingleResult
      ⟨some [⟨some ⟨some "/imgres?imgurl=x-raw-image:///abc&amp;imgrefurl=https://p/1"⟩,
        false⟩], true⟩ 0 ⟨0, []⟩ =
      (some (.invalidProtocol "x-raw-image:"), ⟨0, []⟩) := by
  refine ⟨⟨_, _, _, rfl, rfl, rfl, rfl, rfl, by decide, by decide⟩, by decide, rfl⟩

/-- C10: for a non-positive retry budget the while-loop body never runs:
the wrapped operation is not invoked, and the failure surfaced is the
dereference of the never-assigned lastError (a runtime TypeError), not
the documented failed-after exhaustion error. -/
theorem C10_retry_nonpositive_budget {σ ε α : Type} (fn : σ → Except ε α × σ)
    (retries : Int) (timeout : Nat) (s : σ) (h : retries ≤ 0) :
    retry fn retries timeout s = ⟨.lastErrorUndefined, s, 0, []⟩ ∧
    ∀ (r : Int) (e : ε), (retry fn retries timeout s).outcome ≠ .exhausted r e := by
  have h0 : retries.toNat = 0 := by omega
  constructor
  · rw [retry, h0]
    rfl
  · intro r e hcontra
    rw [retry, h0] at hcontra
    exact RetryOutcome.noConfusion hcontra

/-- C10 witness: the budget 0 applied to a concrete failing operation. -/
theorem C10_retry_nonpositive_budget_witness :
    retry (attemptOp (fun _ => (Except.error Err.containerNull : Except Err Nat)))
      0 250 5 = ⟨.lastErrorUndefined, 5, 0, []⟩ :=
  (C10_retry_nonpositive_budget
    (attemptOp (fun _ => (Except.error Err.containerNull : Except Err Nat)))
    0 250 5 (by omega)).1

end Morphic
